import Mathlib

/-!
Verification development for the Pokemon microservices gateway repository.

The repository is a Node/Express system: a gateway (reverse proxy plus
health aggregation over four registered microservices) and a search
service that fans out one logical key to three backends with
`Promise.allSettled` and merges the settled results.  The definitions
below are a shallow embedding of that JavaScript code: JSON values are an
inductive type, JavaScript object field assignment (`o[k] = v`) and
object spread (`{...a, ...b}`) are explicit association-list operations,
and each request handler is a pure function of its inputs (the settled
backend outcomes are passed in, since the network itself is outside the
embedding).
-/

namespace PokeGateway

/-- JSON-like values exchanged by the services.  Numbers are modelled as
integers; none of the verified properties depends on numeric payloads. -/
inductive JsonVal where
  | null : JsonVal
  | bool (b : Bool) : JsonVal
  | num (n : Int) : JsonVal
  | str (s : String) : JsonVal
  | arr (elems : List JsonVal) : JsonVal
  | obj (fields : List (String × JsonVal)) : JsonVal

/-- Keys present in an association list modelling a JavaScript object. -/
def hasKey {α : Type} (o : List (String × α)) (k : String) : Bool :=
  o.any (fun p => p.1 == k)

/-- JavaScript object field assignment `o[k] = v`: if the key is already
present its value is updated in place (keeping the original insertion
position), otherwise the pair is appended at the end.  JavaScript objects
never hold a duplicate key; on such lists the update touches the single
matching entry. -/
def jsSet {α : Type} (o : List (String × α)) (k : String) (v : α) : List (String × α) :=
  if hasKey o k then
    o.map (fun p => if p.1 = k then (k, v) else p)
  else o ++ [(k, v)]

/-- JavaScript object spread `{...o, ...v}`: when `v` is an object its
fields are assigned into `o` left to right; spreading a non-object value
(`null`, a boolean, a number, an array treated as opaque) contributes no
string-keyed own enumerable properties, so `o` is unchanged.  (Spreading
a primitive string would contribute index keys; no service payload in
this system is a bare string, and the aggregator only ever spreads the
poke backend's JSON object.) -/
def jsSpread (o : List (String × JsonVal)) : JsonVal → List (String × JsonVal)
  | .obj fs => fs.foldl (fun acc p => jsSet acc p.1 p.2) o
  | _ => o

/-- Outcome of one settled promise, as reported by `Promise.allSettled`:
`fulfilled` carries the resolved value, `rejected` carries the rejection
reason's `message`. -/
inductive BackendResult where
  | fulfilled (value : JsonVal) : BackendResult
  | rejected (message : String) : BackendResult

/-- The three settled results of the search fan-out, in the positional
order of the promise array `[fetchPokemonData, fetchPokemonStats,
fetchPokemonImage]`. -/
structure SettledTriple where
  pokeData : BackendResult
  statsData : BackendResult
  imageData : BackendResult

/-- The aggregated search response object `{name, status, data}` built by
the `/poke/search` handler. -/
structure AggregatedResponse where
  name : String
  status : List (String × String)
  data : List (String × JsonVal)

/-- Merge step of the `/poke/search` handler (services/search-api):
starting from `status = {}` and `data = {}`, for the poke backend a
fulfilled payload is spread into `data` and `status.poke_api` is set to
"success", a rejection stores `data.poke_api_error` and "error"; for the
stats backend the payload is assigned to `data.stats` or the message to
`data.stats_error`; for the images backend to `data.image` or
`data.image_error`. -/
def processResults (pokemon_name : String) (r : SettledTriple) : AggregatedResponse :=
  let sd0 : List (String × String) × List (String × JsonVal) := ([], [])
  let sd1 := match r.pokeData with
    | .fulfilled v => (jsSet sd0.1 "poke_api" "success", jsSpread sd0.2 v)
    | .rejected m => (jsSet sd0.1 "poke_api" "error", jsSet sd0.2 "poke_api_error" (.str m))
  let sd2 := match r.statsData with
    | .fulfilled v => (jsSet sd1.1 "stats_api" "success", jsSet sd1.2 "stats" v)
    | .rejected m => (jsSet sd1.1 "stats_api" "error", jsSet sd1.2 "stats_error" (.str m))
  let sd3 := match r.imageData with
    | .fulfilled v => (jsSet sd2.1 "images_api" "success", jsSet sd2.2 "image" v)
    | .rejected m => (jsSet sd2.1 "images_api" "error", jsSet sd2.2 "image_error" (.str m))
  { name := pokemon_name, status := sd3.1, data := sd3.2 }

/-- HTTP result of the `/poke/search` handler: a 400 with an error body
when validation fails, otherwise a 200 carrying the aggregated response
(`res.json` responds with status 200). -/
inductive SearchHttpResult where
  | badRequest (body : List (String × JsonVal)) : SearchHttpResult
  | ok (resp : AggregatedResponse) : SearchHttpResult

/-- HTTP status code of a search handler result. -/
def SearchHttpResult.httpStatus : SearchHttpResult → Nat
  | .badRequest _ => 400
  | .ok _ => 200

/-- Base URL of the poke backend (default configuration). -/
def POKE_API_URL : String := "http://localhost:3004"

/-- Base URL of the stats backend (default configuration). -/
def STATS_API_URL : String := "http://localhost:3002"

/-- Base URL of the images backend (default configuration). -/
def IMAGES_API_URL : String := "http://localhost:3003"

/-- Target URL of `fetchPokemonData`. -/
def fetchPokemonDataUrl (name : String) : String :=
  POKE_API_URL ++ "/api/pokemon/" ++ name

/-- Target URL of `fetchPokemonStats`. -/
def fetchPokemonStatsUrl (name : String) : String :=
  STATS_API_URL ++ "/api/stats/" ++ name

/-- Target URL of `fetchPokemonImage`. -/
def fetchPokemonImageUrl (name : String) : String :=
  IMAGES_API_URL ++ "/api/images/" ++ name

/-- The `/poke/search` handler.  `pokemon_name` is the query parameter
(`none` when absent); the JavaScript guard `if (!pokemon_name)` fires on
`undefined` and on the empty string, both being falsy.  `backends` gives
the settled outcome each backend call would produce for the key; the
second component of the result records the outbound URLs actually
requested, which is empty on the validation path because the handler
returns before building the promise array. -/
def pokeSearchHandler : Option String → SettledTriple → SearchHttpResult × List String
  | none, _ =>
    (.badRequest [("error", .str "pokemon_name parameter is required")], [])
  | some key, backends =>
    if key = "" then
      (.badRequest [("error", .str "pokemon_name parameter is required")], [])
    else
      (.ok (processResults key backends),
        [fetchPokemonDataUrl key, fetchPokemonStatsUrl key, fetchPokemonImageUrl key])

/-- Identity of one of the three concurrently launched search promises. -/
inductive PromiseId where
  | pokeP : PromiseId
  | statsP : PromiseId
  | imagesP : PromiseId
deriving DecidableEq

/-- The three launched tasks with their completion delays, in launch
order (the promise array of the handler). -/
def fanoutDelayTasks (delays : PromiseId → Nat) : List (Nat × PromiseId) :=
  [(delays .pokeP, .pokeP), (delays .statsP, .statsP), (delays .imagesP, .imagesP)]

/-- Event-loop model of concurrent completion: the launched tasks settle
in order of their delays (a stable sort of the task list by delay). -/
def settlementOrder (delays : PromiseId → Nat) : List PromiseId :=
  ((fanoutDelayTasks delays).insertionSort (fun a b => a.1 ≤ b.1)).map Prod.snd

/-- The log of settlement events: which promise settled when, and with
which result. -/
def settlementLog (delays : PromiseId → Nat) (results : PromiseId → BackendResult) :
    List (PromiseId × BackendResult) :=
  (settlementOrder delays).map (fun i => (i, results i))

/-- `Promise.allSettled` over the fan-out: after all events have fired,
each positional slot of the result array holds the outcome of the
promise launched at that position, regardless of the order in which the
events fired.  `none` would mean a slot never settled. -/
def allSettledTriple (delays : PromiseId → Nat) (results : PromiseId → BackendResult) :
    Option SettledTriple :=
  match List.lookup .pokeP (settlementLog delays results),
        List.lookup .statsP (settlementLog delays results),
        List.lookup .imagesP (settlementLog delays results) with
  | some p, some s, some im => some ⟨p, s, im⟩
  | _, _, _ => none

/-- The fan-out-and-merge pipeline of the search handler, with explicit
completion delays for the three concurrent calls. -/
def searchWithDelays (key : String) (delays : PromiseId → Nat)
    (results : PromiseId → BackendResult) : Option AggregatedResponse :=
  (allSettledTriple delays results).map (processResults key)

/-- An inbound HTTP request as the gateway's proxy middleware sees it:
Express lower-cases header names, so the inbound host header has key
"host". -/
structure InboundRequest where
  method : String
  path : String
  query : List (String × String)
  headers : List (String × String)
  body : JsonVal

/-- Query-string serialization `k1=v1&k2=v2` (percent-encoding of
reserved characters is outside the model; the verified properties only
use plain values). -/
def encodeQuery : List (String × String) → String
  | [] => ""
  | [p] => p.1 ++ "=" ++ p.2
  | p :: rest => p.1 ++ "=" ++ p.2 ++ "&" ++ encodeQuery rest

/-- `req.originalUrl`: the full original path with its query string. -/
def originalUrl (req : InboundRequest) : String :=
  req.path ++ (if req.query.isEmpty then "" else "?" ++ encodeQuery req.query)

/-- Axios `buildURL`: the serialized `params` are appended to the request
URL, joined with "&" when the URL already contains a "?" (the
`url.indexOf('?')` check) and with "?" otherwise. -/
def axiosBuildUrl (url : String) (params : List (String × String)) : String :=
  let serialized := encodeQuery params
  if serialized = "" then url
  else if '?' ∈ url.data then url ++ "&" ++ serialized
  else url ++ "?" ++ serialized

/-- The axios request configuration assembled by `createProxy`. -/
structure AxiosConfig where
  method : String
  url : String
  data : JsonVal
  params : List (String × String)
  headers : List (String × Option String)
  timeout : Nat

/-- Request configuration built by the gateway's `createProxy` handler:
`url` is the service base URL concatenated with `req.originalUrl`,
`data` is the inbound body, `params` is the inbound query object, and
`headers` spreads the inbound headers and then assigns `host: undefined`
(modelled as `none`). -/
def proxyAxiosConfig (serviceUrl : String) (req : InboundRequest) : AxiosConfig :=
  { method := req.method
    url := serviceUrl ++ originalUrl req
    data := req.body
    params := req.query
    headers := jsSet (req.headers.map (fun p => (p.1, some p.2))) "host" none
    timeout := 30000 }

/-- The URL axios actually requests: `buildURL` of the configured URL and
params. -/
def effectiveUrl (cfg : AxiosConfig) : String := axiosBuildUrl cfg.url cfg.params

/-- The headers axios actually sends: a header whose value is `undefined`
is dropped from the outbound request. -/
def effectiveHeaders (cfg : AxiosConfig) : List (String × String) :=
  cfg.headers.filterMap (fun p => p.2.map (fun v => (p.1, v)))

/-- Failure of a proxied axios call: `upstream` corresponds to an error
with `error.response` present (the backend answered with a non-2xx
status), `network` to a transport-level error with no response. -/
inductive AxiosFailure where
  | upstream (status : Nat) (statusText : String) : AxiosFailure
  | network (message : String) : AxiosFailure

/-- The `errorMessage` string built in the catch branch of
`createProxy`. -/
def proxyErrorMessage : AxiosFailure → String
  | .upstream s txt => "Service error: " ++ toString s ++ " - " ++ txt
  | .network m => "Network error: " ++ m

/-- The status code chosen by `error.response?.status || 503`; JavaScript
`||` also falls back when the status is the (unreachable for a real
response) falsy value 0. -/
def proxyErrorStatus : AxiosFailure → Nat
  | .upstream s _ => if s = 0 then 503 else s
  | .network _ => 503

/-- An HTTP response synthesized by the gateway. -/
structure ProxyHttpResponse where
  status : Nat
  body : List (String × JsonVal)

/-- The failure response of `createProxy`'s catch branch. -/
def proxyErrorResponse (serviceName : String) (e : AxiosFailure) (timestamp : String) :
    ProxyHttpResponse :=
  { status := proxyErrorStatus e
    body := [("error", .str "Service unavailable"),
             ("service", .str serviceName),
             ("message", .str (proxyErrorMessage e)),
             ("timestamp", .str timestamp)] }

/-- Outcome of one `GET <baseURL>/health` probe issued by the gateway's
`/status` handler: `ok` carries the `x-response-time` header value (or
"unknown") and the backend's own payload, `err` the error message and
optional error code. -/
inductive HealthCheckOutcome where
  | ok (responseTime : String) (payload : JsonVal) : HealthCheckOutcome
  | err (message : String) (code : Option String) : HealthCheckOutcome

/-- JavaScript `String.prototype.toLowerCase()` (character-wise lowering;
the registry names are plain ASCII). -/
def jsToLowerCase (s : String) : String := String.mk (s.data.map Char.toLower)

/-- The gateway's static service registry (default configuration), in
declaration order. -/
def MICROSERVICES : List (String × String) :=
  [("SEARCH_API", "http://localhost:3001"),
   ("STATS_API", "http://localhost:3002"),
   ("IMAGES_API", "http://localhost:3003"),
   ("POKE_API", "http://localhost:3004")]

/-- The per-service entry written into `status.microservices`: a healthy
probe records status "healthy" with the backend payload, a failed one
records status "unhealthy" with the error message (an absent error code
is modelled as JSON null; `JSON.stringify` drops the undefined field). -/
def microserviceEntry (serviceUrl : String) : HealthCheckOutcome → List (String × JsonVal)
  | .ok rt payload =>
    [("status", .str "healthy"), ("url", .str serviceUrl),
     ("response_time", .str rt), ("data", payload)]
  | .err m code =>
    [("status", .str "unhealthy"), ("url", .str serviceUrl),
     ("error", .str m),
     ("error_code", match code with | some c => .str c | none => .null)]

/-- The `service.status === 'healthy'` test of the reduction step. -/
def entryIsHealthy (e : List (String × JsonVal)) : Bool :=
  match List.lookup "status" e with
  | some (.str s) => s == "healthy"
  | _ => false

/-- Runtime facts the gateway reports about itself (`process.uptime()`,
`process.memoryUsage()`, a timestamp); opaque inputs to the handler. -/
structure GatewayRuntime where
  uptime : Int
  memory : JsonVal
  timestamp : String

/-- The gateway's own entry in the status report; its `status` field is
the literal "healthy". -/
def gatewayEntry (g : GatewayRuntime) : List (String × JsonVal) :=
  [("status", .str "healthy"), ("uptime", .num g.uptime),
   ("memory", g.memory), ("timestamp", .str g.timestamp)]

/-- The full `/status` report. -/
structure StatusReport where
  gateway : List (String × JsonVal)
  microservices : List (String × List (String × JsonVal))
  overall_status : String
  check_duration_ms : Nat
  httpCode : Nat

/-- The gateway's `/status` handler: probes every registry entry (the
settled outcomes are the `outcomes` input, keyed by registry name),
stores each entry under the lower-cased service name, reduces
`overall_status` with `every(service => service.status === 'healthy')`
over the microservice entries, and answers 200 when all are healthy and
503 otherwise.  `duration` is the measured wall-clock time of the whole
fan-out. -/
def statusHandler (g : GatewayRuntime) (outcomes : String → HealthCheckOutcome)
    (duration : Nat) : StatusReport :=
  let micro := MICROSERVICES.map (fun p => (jsToLowerCase p.1, microserviceEntry p.2 (outcomes p.1)))
  let allHealthy := micro.all (fun p => entryIsHealthy p.2)
  { gateway := gatewayEntry g
    microservices := micro
    overall_status := if allHealthy then "healthy" else "degraded"
    check_duration_ms := duration
    httpCode := if allHealthy then 200 else 503 }

theorem lookup_cons_eq {κ α : Type} [BEq κ] (a : κ) (b : κ × α) (l : List (κ × α)) :
    List.lookup a (b :: l) = if a == b.1 then some b.2 else List.lookup a l := by
  cases h : a == b.1 <;> simp [List.lookup, h]

theorem hasKey_cons {α : Type} (p : String × α) (l : List (String × α)) (k : String) :
    hasKey (p :: l) k = (p.1 == k || hasKey l k) := rfl

theorem lookup_update_of_hasKey {α : Type} (k : String) (v : α) :
    ∀ (o : List (String × α)), hasKey o k = true →
      List.lookup k (o.map (fun p => if p.1 = k then (k, v) else p)) = some v := by
  intro o
  induction o with
  | nil => intro h; simp [hasKey] at h
  | cons hd tl ih =>
    intro h
    rw [hasKey_cons, Bool.or_eq_true] at h
    by_cases hk : hd.1 = k
    · simp [hk, lookup_cons_eq]
    · rcases h with h | h
      · exact absurd (beq_iff_eq.mp h) hk
      · have hne : (k == hd.1) = false := beq_eq_false_iff_ne.mpr (fun he => hk he.symm)
        rw [List.map_cons, if_neg hk, lookup_cons_eq, if_neg (by simp [hne])]
        exact ih h

theorem lookup_append_of_not_hasKey {α : Type} (k : String) (l₂ : List (String × α)) :
    ∀ (o : List (String × α)), hasKey o k = false →
      List.lookup k (o ++ l₂) = List.lookup k l₂ := by
  intro o
  induction o with
  | nil => intro _; simp
  | cons hd tl ih =>
    intro h
    rw [hasKey_cons, Bool.or_eq_false_iff] at h
    have hne : (k == hd.1) = false := beq_eq_false_iff_ne.mpr
      (fun he => absurd (beq_iff_eq.mpr he.symm) (by simp [h.1]))
    rw [List.cons_append, lookup_cons_eq]
    simp only [hne, if_neg, Bool.false_eq_true, not_false_iff]
    exact ih h.2

/-- Assigning a key makes it look up to the assigned value. -/
theorem lookup_jsSet_self {α : Type} (o : List (String × α)) (k : String) (v : α) :
    List.lookup k (jsSet o k v) = some v := by
  unfold jsSet
  by_cases h : hasKey o k
  · rw [if_pos h]
    exact lookup_update_of_hasKey k v o h
  · rw [if_neg h]
    rw [lookup_append_of_not_hasKey k _ o (by simpa using h)]
    simp [lookup_cons_eq]

/-- Assigning one key leaves lookups of a different key unchanged. -/
theorem lookup_jsSet_ne {α : Type} (o : List (String × α)) (k k₂ : String) (v : α)
    (hne : k₂ ≠ k) : List.lookup k₂ (jsSet o k v) = List.lookup k₂ o := by
  have hbne : (k₂ == k) = false := beq_eq_false_iff_ne.mpr hne
  unfold jsSet
  by_cases h : hasKey o k
  · rw [if_pos h]
    clear h
    induction o with
    | nil => simp
    | cons hd tl ih =>
      by_cases hk : hd.1 = k
      · have h2 : (k₂ == hd.1) = false := beq_eq_false_iff_ne.mpr
          (fun he => hne (he.trans hk))
        simp [hk, lookup_cons_eq, hbne, h2, ih]
      · cases hq : (k₂ == hd.1) with
        | true => simp [List.map_cons, if_neg hk, lookup_cons_eq, hq]
        | false => simp [List.map_cons, if_neg hk, lookup_cons_eq, hq, ih]
  · rw [if_neg h]
    clear h
    induction o with
    | nil => simp [lookup_cons_eq, hbne]
    | cons hd tl ih =>
      cases hq : (k₂ == hd.1) with
      | true => simp [List.cons_append, lookup_cons_eq, hq]
      | false => simp [List.cons_append, lookup_cons_eq, hq, ih]

/-- Assigning one key neither adds nor removes entries at a different
key. -/
theorem mem_jsSet_ne {α : Type} (o : List (String × α)) (k k₂ : String) (v w : α)
    (hne : k₂ ≠ k) : (k₂, w) ∈ jsSet o k v ↔ (k₂, w) ∈ o := by
  unfold jsSet
  by_cases h : hasKey o k
  · rw [if_pos h]
    constructor
    · intro hm
      rcases List.mem_map.mp hm with ⟨p, hp, hpe⟩
      by_cases hk : p.1 = k
      · rw [if_pos hk] at hpe
        exact absurd (congrArg Prod.fst hpe.symm) (by simpa using hne)
      · rw [if_neg hk] at hpe
        exact hpe ▸ hp
    · intro hm
      refine List.mem_map.mpr ⟨(k₂, w), hm, ?_⟩
      rw [if_neg (by simpa using hne)]
  · rw [if_neg h]
    rw [List.mem_append]
    constructor
    · rintro (hm | hm)
      · exact hm
      · simp at hm
        exact absurd hm.1 hne
    · exact fun hm => Or.inl hm

theorem hasKey_append {α : Type} (a b : List (String × α)) (k : String) :
    hasKey (a ++ b) k = (hasKey a k || hasKey b k) := by
  simp [hasKey]

theorem foldl_jsSet_eq_append {α : Type} :
    ∀ (fs acc : List (String × α)), (∀ p ∈ fs, hasKey acc p.1 = false) →
      (fs.map Prod.fst).Nodup →
      fs.foldl (fun a p => jsSet a p.1 p.2) acc = acc ++ fs := by
  intro fs
  induction fs with
  | nil => intro acc _ _; simp
  | cons p t ih =>
    intro acc hdisj hnd
    have hp : hasKey acc p.1 = false := hdisj p (List.mem_cons_self p t)
    have hstep : jsSet acc p.1 p.2 = acc ++ [p] := by
      unfold jsSet
      rw [if_neg (by simp [hp])]
    rw [List.foldl_cons, hstep]
    rw [List.map_cons, List.nodup_cons] at hnd
    have hdisj₂ : ∀ q ∈ t, hasKey (acc ++ [p]) q.1 = false := by
      intro q hq
      rw [hasKey_append]
      have h1 : hasKey acc q.1 = false := hdisj q (List.mem_cons_of_mem p hq)
      have h2 : hasKey [p] q.1 = false := by
        have hne : p.1 ≠ q.1 := fun he => hnd.1 (he ▸ List.mem_map_of_mem Prod.fst hq)
        simp [hasKey, hne]
      rw [h1, h2]
      rfl
    rw [ih (acc ++ [p]) hdisj₂ hnd.2, List.append_assoc, List.singleton_append]

/-- On a duplicate-free association list, lookup finds any member. -/
theorem lookup_of_mem_of_nodup_keys {α : Type} :
    ∀ (l : List (String × α)), (l.map Prod.fst).Nodup →
      ∀ (k : String) (v : α), (k, v) ∈ l → List.lookup k l = some v := by
  intro l
  induction l with
  | nil => intro _ k v hm; simp at hm
  | cons hd tl ih =>
    intro hnd k v hm
    rw [List.map_cons, List.nodup_cons] at hnd
    rcases List.mem_cons.mp hm with he | hm₂
    · rw [lookup_cons_eq]
      have hk : k = hd.1 := congrArg Prod.fst he
      have hv : v = hd.2 := congrArg Prod.snd he
      simp [hk, hv]
    · have hne : k ≠ hd.1 := by
        intro he
        exact hnd.1 (he ▸ List.mem_map_of_mem Prod.fst hm₂)
      rw [lookup_cons_eq, if_neg (by simp [hne])]
      exact ih hnd.2 k v hm₂

/-- Looking an index up in a settlement log keyed by promise identity
recovers that promise's result, as soon as the promise settled at all. -/
theorem lookup_settlement_map {ι β : Type} [DecidableEq ι] (f : ι → β) :
    ∀ (l : List ι) (i : ι), i ∈ l →
      List.lookup i (l.map (fun j => (j, f j))) = some (f i) := by
  intro l
  induction l with
  | nil => intro i hi; simp at hi
  | cons j t ih =>
    intro i hi
    rw [List.map_cons, lookup_cons_eq]
    by_cases he : i = j
    · subst he; simp
    · rw [if_neg (by simp [he])]
      exact ih i (List.mem_cons.mp hi |>.resolve_left he)

/-- Every launched promise appears in the settlement order, whatever the
delays. -/
theorem mem_settlementOrder (delays : PromiseId → Nat) (i : PromiseId) :
    i ∈ settlementOrder delays := by
  unfold settlementOrder
  refine List.mem_map.mpr ⟨(delays i, i), ?_, rfl⟩
  rw [List.mem_insertionSort]
  cases i <;> simp [fanoutDelayTasks]

/-- `Promise.allSettled` fills each positional slot with the result of
the promise launched at that position, for every completion order. -/
theorem allSettledTriple_eq (delays : PromiseId → Nat) (results : PromiseId → BackendResult) :
    allSettledTriple delays results =
      some ⟨results .pokeP, results .statsP, results .imagesP⟩ := by
  unfold allSettledTriple settlementLog
  rw [lookup_settlement_map results (settlementOrder delays) .pokeP (mem_settlementOrder delays .pokeP),
    lookup_settlement_map results (settlementOrder delays) .statsP (mem_settlementOrder delays .statsP),
    lookup_settlement_map results (settlementOrder delays) .imagesP (mem_settlementOrder delays .imagesP)]

/-- The status map of the merge has exactly the three backend entries in
fixed order, with a per-backend "success"/"error" value. -/
theorem processResults_status (key : String) (r : SettledTriple) :
    (processResults key r).status =
      [("poke_api", match r.pokeData with | .fulfilled _ => "success" | .rejected _ => "error"),
       ("stats_api", match r.statsData with | .fulfilled _ => "success" | .rejected _ => "error"),
       ("images_api", match r.imageData with | .fulfilled _ => "success" | .rejected _ => "error")] := by
  rcases r with ⟨p | p, s | s, i | i⟩ <;> rfl

/-- C1: for every non-empty key and every combination of the three
backends failing independently, the search handler returns HTTP 200 with
an aggregated response whose status map has exactly one entry per
configured backend, each "success" or "error"; every outcome combination
is handled (the handler is a total function, so no backend failure
escapes it). -/
theorem search_aggregates_all_backend_outcomes (key : String) (r : SettledTriple)
    (hk : key ≠ "") :
    (pokeSearchHandler (some key) r).1.httpStatus = 200
  ∧ (pokeSearchHandler (some key) r).1 = .ok (processResults key r)
  ∧ (processResults key r).status.map Prod.fst = ["poke_api", "stats_api", "images_api"]
  ∧ ∀ p ∈ (processResults key r).status, p.2 = "success" ∨ p.2 = "error" := by
  have hh : pokeSearchHandler (some key) r =
      (.ok (processResults key r),
        [fetchPokemonDataUrl key, fetchPokemonStatsUrl key, fetchPokemonImageUrl key]) := by
    simp [pokeSearchHandler, hk]
  refine ⟨by rw [hh]; rfl, by rw [hh], ?_, ?_⟩
  · rw [processResults_status]
    rfl
  · intro p hp
    rw [processResults_status] at hp
    simp only [List.mem_cons, List.not_mem_nil, or_false] at hp
    rcases hp with rfl | rfl | rfl
    · cases r.pokeData <;> simp
    · cases r.statsData <;> simp
    · cases r.imageData <;> simp

/-- C1 witness at a concrete key and a concrete partial-failure
outcome. -/
theorem search_aggregates_all_backend_outcomes_witness :
    (pokeSearchHandler (some "pikachu")
      ⟨.fulfilled (.obj [("id", .num 25)]), .rejected "stats down", .rejected "images down"⟩).1.httpStatus = 200
  ∧ (processResults "pikachu"
      ⟨.fulfilled (.obj [("id", .num 25)]), .rejected "stats down", .rejected "images down"⟩).status.map Prod.fst
        = ["poke_api", "stats_api", "images_api"] := by
  have h := search_aggregates_all_backend_outcomes "pikachu"
    ⟨.fulfilled (.obj [("id", .num 25)]), .rejected "stats down", .rejected "images down"⟩
    (by decide)
  exact ⟨h.1, h.2.2.1⟩

/-- C2 counterexample: when the stats and images backends fail, the
status map records the failures under the backend names "stats_api" and
"images_api", but the error fields added to `data` are named
"stats_error" and "image_error" — the fields `stats_api_error` and
`images_api_error` that the claim's naming rule prescribes are absent. -/
theorem merge_error_field_names_counterexample :
    List.lookup "stats_api" (processResults "pikachu"
      ⟨.fulfilled (.obj []), .rejected "stats down", .rejected "images down"⟩).status = some "error"
  ∧ List.lookup "stats_api_error" (processResults "pikachu"
      ⟨.fulfilled (.obj []), .rejected "stats down", .rejected "images down"⟩).data = none
  ∧ List.lookup "stats_error" (processResults "pikachu"
      ⟨.fulfilled (.obj []), .rejected "stats down", .rejected "images down"⟩).data = some (.str "stats down")
  ∧ List.lookup "images_api" (processResults "pikachu"
      ⟨.fulfilled (.obj []), .rejected "stats down", .rejected "images down"⟩).status = some "error"
  ∧ List.lookup "images_api_error" (processResults "pikachu"
      ⟨.fulfilled (.obj []), .rejected "stats down", .rejected "images down"⟩).data = none
  ∧ List.lookup "image_error" (processResults "pikachu"
      ⟨.fulfilled (.obj []), .rejected "stats down", .rejected "images down"⟩).data = some (.str "images down") :=
  ⟨rfl, rfl, rfl, rfl, rfl, rfl⟩

/-- C2 (amended): per-backend merge policy.  A fulfilled poke payload is
spread into `data` and `status.poke_api` records "success"; a fulfilled
stats/images payload is stored under `data.stats` / `data.image` with
"success" in the status map; a failed backend records "error" in the
status map and stores the failure message under the error field the code
actually uses: `poke_api_error` for the poke backend, but `stats_error`
and `image_error` (not `stats_api_error` / `images_api_error`) for the
other two. -/
theorem merge_policy_per_backend (key : String) (r : SettledTriple) :
    (∀ m, r.pokeData = .rejected m →
        List.lookup "poke_api" (processResults key r).status = some "error"
      ∧ List.lookup "poke_api_error" (processResults key r).data = some (.str m))
  ∧ (∀ fs, r.pokeData = .fulfilled (.obj fs) →
        List.lookup "poke_api" (processResults key r).status = some "success"
      ∧ ((fs.map Prod.fst).Nodup → ∀ k v, (k, v) ∈ fs →
          k ≠ "stats" → k ≠ "stats_error" → k ≠ "image" → k ≠ "image_error" →
          List.lookup k (processResults key r).data = some v))
  ∧ (∀ v, r.statsData = .fulfilled v →
        List.lookup "stats_api" (processResults key r).status = some "success"
      ∧ List.lookup "stats" (processResults key r).data = some v)
  ∧ (∀ m, r.statsData = .rejected m →
        List.lookup "stats_api" (processResults key r).status = some "error"
      ∧ List.lookup "stats_error" (processResults key r).data = some (.str m))
  ∧ (∀ v, r.imageData = .fulfilled v →
        List.lookup "images_api" (processResults key r).status = some "success"
      ∧ List.lookup "image" (processResults key r).data = some v)
  ∧ (∀ m, r.imageData = .rejected m →
        List.lookup "images_api" (processResults key r).status = some "error"
      ∧ List.lookup "image_error" (processResults key r).data = some (.str m)) := by
  obtain ⟨pd, sd, im⟩ := r
  refine ⟨?_, ?_, ?_, ?_, ?_, ?_⟩
  · intro m h
    subst h
    constructor
    · simp [processResults_status, lookup_cons_eq]
    · cases sd <;> cases im <;>
        (simp only [processResults]
         rw [lookup_jsSet_ne _ _ _ _ (by decide), lookup_jsSet_ne _ _ _ _ (by decide),
           lookup_jsSet_self])
  · intro fs h
    subst h
    constructor
    · simp [processResults_status, lookup_cons_eq]
    · intro hnd k v hkv h1 h2 h3 h4
      have hspread : jsSpread [] (.obj fs) = fs := by
        show fs.foldl (fun acc p => jsSet acc p.1 p.2) [] = fs
        rw [foldl_jsSet_eq_append fs [] (fun p _ => rfl) hnd, List.nil_append]
      have hfs := lookup_of_mem_of_nodup_keys fs hnd k v hkv
      cases sd <;> cases im <;>
        (simp only [processResults]
         rw [lookup_jsSet_ne _ _ _ _ (by first | exact h3 | exact h4),
           lookup_jsSet_ne _ _ _ _ (by first | exact h1 | exact h2), hspread, hfs])
  · intro v h
    subst h
    constructor
    · simp [processResults_status, lookup_cons_eq]
    · cases im <;>
        (simp only [processResults]
         rw [lookup_jsSet_ne _ _ _ _ (by decide), lookup_jsSet_self])
  · intro m h
    subst h
    constructor
    · simp [processResults_status, lookup_cons_eq]
    · cases im <;>
        (simp only [processResults]
         rw [lookup_jsSet_ne _ _ _ _ (by decide), lookup_jsSet_self])
  · intro v h
    subst h
    constructor
    · simp [processResults_status, lookup_cons_eq]
    · simp only [processResults]
      rw [lookup_jsSet_self]
  · intro m h
    subst h
    constructor
    · simp [processResults_status, lookup_cons_eq]
    · simp only [processResults]
      rw [lookup_jsSet_self]

/-- C2 witness: concrete instance with a fulfilled stats backend. -/
theorem merge_policy_per_backend_witness :
    List.lookup "stats_api" (processResults "pikachu"
      ⟨.rejected "x", .fulfilled (.num 1), .rejected "y"⟩).status = some "success"
  ∧ List.lookup "stats" (processResults "pikachu"
      ⟨.rejected "x", .fulfilled (.num 1), .rejected "y"⟩).data = some (.num 1) := by
  have h := merge_policy_per_backend "pikachu" ⟨.rejected "x", .fulfilled (.num 1), .rejected "y"⟩
  exact ⟨(h.2.2.1 (.num 1) rfl).1, (h.2.2.1 (.num 1) rfl).2⟩

/-- C8: a missing or empty `pokemon_name` makes the handler answer HTTP
400, with no outbound backend call issued, and the result does not
depend on what the backends would have answered — the key never reaches
the aggregation logic. -/
theorem empty_key_rejected_before_fanout (q : Option String) (r r₂ : SettledTriple)
    (hf : q = none ∨ q = some "") :
    (pokeSearchHandler q r).1.httpStatus = 400
  ∧ (pokeSearchHandler q r).2 = []
  ∧ pokeSearchHandler q r = pokeSearchHandler q r₂ := by
  rcases hf with h | h <;> subst h <;> exact ⟨rfl, rfl, rfl⟩

/-- C8 witness at the empty key. -/
theorem empty_key_rejected_before_fanout_witness :
    (pokeSearchHandler (some "") ⟨.rejected "a", .rejected "b", .rejected "c"⟩).1.httpStatus = 400
  ∧ (pokeSearchHandler (some "") ⟨.rejected "a", .rejected "b", .rejected "c"⟩).2 = [] := by
  have h := empty_key_rejected_before_fanout (some "")
    ⟨.rejected "a", .rejected "b", .rejected "c"⟩
    ⟨.fulfilled .null, .fulfilled .null, .fulfilled .null⟩ (Or.inr rfl)
  exact ⟨h.1, h.2.1⟩

/-- C9: when both the poke backend and the stats backend succeed, the
merged data's `stats` field holds the stats backend's payload — the
`stats` field contributed by the poke payload's own spread (the poke
backend's response always carries one) is silently overwritten, because
the poke payload is spread first and `data.stats` is assigned
afterwards. -/
theorem stats_field_overwritten_by_stats_backend (key : String)
    (fs : List (String × JsonVal)) (w sv : JsonVal) (im : BackendResult)
    (hmem : ("stats", w) ∈ fs) :
    List.lookup "stats" (processResults key
      ⟨.fulfilled (.obj fs), .fulfilled sv, im⟩).data = some sv := by
  cases im <;>
    (simp only [processResults]
     rw [lookup_jsSet_ne _ _ _ _ (by decide), lookup_jsSet_self])

/-- C9 witness: the poke payload carries `stats: "old"`, the stats
backend answers `7`, and the merged data's `stats` field is `7`. -/
theorem stats_field_overwritten_by_stats_backend_witness :
    List.lookup "stats" (processResults "pikachu"
      ⟨.fulfilled (.obj [("stats", .str "old")]), .fulfilled (.num 7), .rejected "z"⟩).data
      = some (.num 7) :=
  stats_field_overwritten_by_stats_backend "pikachu" [("stats", .str "old")]
    (.str "old") (.num 7) (.rejected "z") (List.mem_singleton.mpr rfl)

/-- C3: the merged search output is a deterministic function of the
settled per-backend results only.  For any two assignments of completion
delays to the three concurrent calls — hence for any completion
permutation the event loop can produce — the fan-out-and-merge pipeline
yields the same response, namely the merge of the positional results. -/
theorem merge_insensitive_to_settlement_order (key : String)
    (d₁ d₂ : PromiseId → Nat) (results : PromiseId → BackendResult) :
    searchWithDelays key d₁ results = searchWithDelays key d₂ results
  ∧ searchWithDelays key d₁ results =
      some (processResults key ⟨results .pokeP, results .statsP, results .imagesP⟩) := by
  have h1 := allSettledTriple_eq d₁ results
  have h2 := allSettledTriple_eq d₂ results
  constructor
  · simp [searchWithDelays, h1, h2]
  · simp [searchWithDelays, h1]

/-- C5: the proxy's failure responses.  A transport-level failure (no
backend response) produces status 503; an upstream failure (backend
answered non-2xx) relays the backend's own status code; both carry the
body `{error: "Service unavailable", service, message, timestamp}`. -/
theorem proxy_failure_responses :
    (∀ (serviceName m ts : String),
        proxyErrorResponse serviceName (.network m) ts =
          { status := 503,
            body := [("error", .str "Service unavailable"),
                     ("service", .str serviceName),
                     ("message", .str ("Network error: " ++ m)),
                     ("timestamp", .str ts)] })
  ∧ (∀ (serviceName txt ts : String) (s : Nat), 0 < s →
        proxyErrorResponse serviceName (.upstream s txt) ts =
          { status := s,
            body := [("error", .str "Service unavailable"),
                     ("service", .str serviceName),
                     ("message", .str ("Service error: " ++ toString s ++ " - " ++ txt)),
                     ("timestamp", .str ts)] }) := by
  constructor
  · intro n m t
    rfl
  · intro n txt t s hs
    simp [proxyErrorResponse, proxyErrorStatus, proxyErrorMessage, Nat.pos_iff_ne_zero.mp hs]

/-- C5 witness: a backend answering 404 is relayed as 404. -/
theorem proxy_failure_responses_witness :
    (proxyErrorResponse "POKE_API" (.upstream 404 "Not Found") "t").status = 404 := by
  rw [proxy_failure_responses.2 "POKE_API" "Not Found" "t" 404 (by decide)]

theorem encodeQuery_cons_ne_empty (p : String × String) (t : List (String × String)) :
    encodeQuery (p :: t) ≠ "" := by
  cases t with
  | nil =>
    intro h
    have hl := congrArg String.length h
    simp [encodeQuery, String.length_append] at hl
    exact absurd hl.1.2 (by decide)
  | cons q t₂ =>
    intro h
    have hl := congrArg String.length h
    simp [encodeQuery, String.length_append] at hl
    exact absurd hl.1.1.1.2 (by decide)

/-- C6 counterexample: for the inbound request `GET
/poke/search?pokemon_name=pikachu`, the effective outbound URL carries
the query parameter twice (once from `req.originalUrl`, once appended
again by axios from `params: req.query`), so it is not the base URL plus
the original path-and-query unchanged. -/
theorem proxy_query_duplicated_counterexample :
    effectiveUrl (proxyAxiosConfig "http://localhost:3001"
      { method := "GET", path := "/poke/search", query := [("pokemon_name", "pikachu")],
        headers := [("host", "localhost:3000")], body := .null }) =
      "http://localhost:3001/poke/search?pokemon_name=pikachu&pokemon_name=pikachu"
  ∧ effectiveUrl (proxyAxiosConfig "http://localhost:3001"
      { method := "GET", path := "/poke/search", query := [("pokemon_name", "pikachu")],
        headers := [("host", "localhost:3000")], body := .null }) ≠
      "http://localhost:3001" ++ originalUrl
        { method := "GET", path := "/poke/search", query := [("pokemon_name", "pikachu")],
          headers := [("host", "localhost:3000")], body := .null } := by
  constructor
  · rfl
  · decide

/-- C6 (amended): the proxy's configured target URL is the backend base
URL concatenated with the original path and query string unchanged, and
method and body are forwarded verbatim; but because the parsed query is
additionally passed to axios as `params`, the effective outbound URL is
that target URL with the serialized query appended a second time
whenever the query is non-empty. -/
theorem proxy_target_url_construction (base : String) (req : InboundRequest)
    (hb : '?' ∉ base.data) (hp : '?' ∉ req.path.data) :
    (proxyAxiosConfig base req).method = req.method
  ∧ (proxyAxiosConfig base req).data = req.body
  ∧ (proxyAxiosConfig base req).url = base ++ originalUrl req
  ∧ effectiveUrl (proxyAxiosConfig base req) =
      base ++ originalUrl req ++
        (if req.query.isEmpty then "" else "&" ++ encodeQuery req.query) := by
  refine ⟨rfl, rfl, rfl, ?_⟩
  show axiosBuildUrl (base ++ originalUrl req) req.query =
    base ++ originalUrl req ++ (if req.query.isEmpty then "" else "&" ++ encodeQuery req.query)
  cases hq : req.query with
  | nil =>
    simp [axiosBuildUrl, encodeQuery]
  | cons p t =>
    have hne := encodeQuery_cons_ne_empty p t
    have hurl : '?' ∈ (base ++ originalUrl req).data := by
      rw [String.data_append]
      apply List.mem_append_right
      unfold originalUrl
      rw [hq]
      simp only [List.isEmpty_cons, Bool.false_eq_true, if_neg, not_false_iff]
      rw [String.data_append]
      apply List.mem_append_right
      rw [String.data_append]
      exact List.mem_append_left _ (by decide)
    simp only [axiosBuildUrl]
    rw [if_neg hne, if_pos hurl, List.isEmpty_cons, if_neg (by simp), String.append_assoc]

/-- C6 witness: a request with an empty query is proxied to exactly the
base URL plus the original path. -/
theorem proxy_target_url_construction_witness :
    effectiveUrl (proxyAxiosConfig "http://localhost:3004"
      { method := "GET", path := "/api/pokemon/pikachu", query := [],
        headers := [("host", "localhost:3000")], body := .null }) =
      "http://localhost:3004" ++ originalUrl
        { method := "GET", path := "/api/pokemon/pikachu", query := [],
          headers := [("host", "localhost:3000")], body := .null } ++ "" := by
  have h := proxy_target_url_construction "http://localhost:3004"
    { method := "GET", path := "/api/pokemon/pikachu", query := [],
      headers := [("host", "localhost:3000")], body := .null }
    (by decide) (by decide)
  exact h.2.2.2

/-- An entry of a JavaScript object whose key was just assigned holds the
assigned value. -/
theorem snd_eq_of_mem_jsSet_key {α : Type} (o : List (String × α)) (k : String) (v : α) :
    ∀ q ∈ jsSet o k v, q.1 = k → q.2 = v := by
  intro q hq hk1
  unfold jsSet at hq
  by_cases h : hasKey o k
  · rw [if_pos h] at hq
    rcases List.mem_map.mp hq with ⟨p, hp, hpe⟩
    by_cases hpk : p.1 = k
    · rw [if_pos hpk] at hpe
      rw [← hpe]
    · rw [if_neg hpk] at hpe
      exact absurd (hpe ▸ hk1) hpk
  · rw [if_neg h] at hq
    rcases List.mem_append.mp hq with hq₂ | hq₂
    · exfalso
      have hany : hasKey o k = true :=
        List.any_eq_true.mpr ⟨q, hq₂, beq_iff_eq.mpr hk1⟩
      rw [hany] at h
      exact h rfl
    · have he : q = (k, v) := by simpa using hq₂
      rw [he]

/-- Membership in the effectively sent headers corresponds to membership
with a present (non-`undefined`) value in the configured header object. -/
theorem mem_effectiveHeaders_iff (l : List (String × Option String)) (k v : String) :
    (k, v) ∈ l.filterMap (fun p => p.2.map (fun w => (p.1, w))) ↔ (k, some v) ∈ l := by
  rw [List.mem_filterMap]
  constructor
  · rintro ⟨q, hq, hfq⟩
    rcases Option.map_eq_some'.mp hfq with ⟨w, hw, hpe⟩
    have hk : q.1 = k := congrArg Prod.fst hpe
    have hv : w = v := congrArg Prod.snd hpe
    have : q = (k, some v) := by
      rcases q with ⟨q1, q2⟩
      simp only at hk hw
      rw [hk] at *
      rw [hw, hv]
    exact this ▸ hq
  · intro hm
    exact ⟨(k, some v), hm, rfl⟩

/-- C7: the outbound request the proxy sends never contains the inbound
host header, and every other inbound header is forwarded unchanged. -/
theorem proxy_scrubs_host_header (base : String) (req : InboundRequest) :
    (∀ p ∈ effectiveHeaders (proxyAxiosConfig base req), p.1 ≠ "host")
  ∧ (∀ (k v : String), k ≠ "host" →
      ((k, v) ∈ effectiveHeaders (proxyAxiosConfig base req) ↔ (k, v) ∈ req.headers)) := by
  constructor
  · intro p hp
    rcases List.mem_filterMap.mp hp with ⟨q, hq, hfq⟩
    rcases Option.map_eq_some'.mp hfq with ⟨w, hw, hpe⟩
    intro hph
    have hqk : q.1 = "host" := by
      rw [← congrArg Prod.fst hpe] at hph
      exact hph
    have := snd_eq_of_mem_jsSet_key _ "host" none q hq hqk
    rw [hw] at this
    exact Option.noConfusion this
  · intro k v hk
    show (k, v) ∈ (jsSet (req.headers.map (fun p => (p.1, some p.2))) "host" none).filterMap _ ↔ _
    rw [mem_effectiveHeaders_iff, mem_jsSet_ne _ _ _ _ _ hk, List.mem_map]
    constructor
    · rintro ⟨p, hp, hpe⟩
      have h1 : p.1 = k := congrArg Prod.fst hpe
      have h2 : some p.2 = some v := congrArg Prod.snd hpe
      have h3 : p.2 = v := Option.some.inj h2
      have : p = (k, v) := by
        rcases p with ⟨p1, p2⟩
        simp only at h1 h3
        rw [h1, h3]
      exact this ▸ hp
    · intro hm
      exact ⟨(k, v), hm, rfl⟩

/-- C7 witness: a non-host header of a concrete request is forwarded. -/
theorem proxy_scrubs_host_header_witness :
    ("accept", "application/json") ∈ effectiveHeaders (proxyAxiosConfig "http://localhost:3001"
      { method := "GET", path := "/health", query := [],
        headers := [("host", "localhost:3000"), ("accept", "application/json")], body := .null })
  ↔ ("accept", "application/json") ∈
      ([("host", "localhost:3000"), ("accept", "application/json")] : List (String × String)) :=
  (proxy_scrubs_host_header "http://localhost:3001"
    { method := "GET", path := "/health", query := [],
      headers := [("host", "localhost:3000"), ("accept", "application/json")], body := .null }).2
    "accept" "application/json" (by decide)

theorem all_false_of_mem {α : Type} (l : List α) (p : α → Bool) (x : α) (hx : x ∈ l)
    (hpx : p x = false) : l.all p = false := by
  cases hall : l.all p with
  | false => rfl
  | true =>
    have := List.all_eq_true.mp hall x hx
    rw [hpx] at this
    exact absurd this (by simp)

theorem overall_iff_all_healthy (l : List (String × List (String × JsonVal))) :
    ((if l.all (fun p => entryIsHealthy p.2) then "healthy" else "degraded") = "healthy" ↔
      ∀ p ∈ l, entryIsHealthy p.2 = true) := by
  cases hall : l.all (fun p => entryIsHealthy p.2) with
  | true =>
    constructor
    · intro _
      exact List.all_eq_true.mp hall
    · intro _
      simp
  | false =>
    constructor
    · intro h
      simp at h
    · intro hforall
      have h2 := List.all_eq_true.mpr hforall
      rw [hall] at h2
      exact absurd h2 (by simp)

/-- C4: the health reduction is a strict AND.  `overall_status` is
"healthy" iff every microservice entry is healthy; the HTTP code is 200
exactly when the overall status is "healthy" and 503 otherwise; flipping
any single registered backend to an unhealthy outcome makes the overall
status "degraded", while the entry of every other backend is
unchanged. -/
theorem status_overall_strict_and (g : GatewayRuntime) (o : String → HealthCheckOutcome)
    (dur : Nat) (b m : String) (c : Option String)
    (hb : b ∈ MICROSERVICES.map Prod.fst) :
    ((statusHandler g o dur).overall_status = "healthy" ↔
      ∀ p ∈ (statusHandler g o dur).microservices, entryIsHealthy p.2 = true)
  ∧ ((statusHandler g o dur).httpCode =
      if (statusHandler g o dur).overall_status = "healthy" then 200 else 503)
  ∧ (statusHandler g (fun n => if n = b then .err m c else o n) dur).overall_status = "degraded"
  ∧ (∀ p ∈ MICROSERVICES, p.1 ≠ b →
      List.lookup (jsToLowerCase p.1)
          (statusHandler g (fun n => if n = b then .err m c else o n) dur).microservices
        = List.lookup (jsToLowerCase p.1) (statusHandler g o dur).microservices) := by
  refine ⟨overall_iff_all_healthy _, ?_, ?_, ?_⟩
  · have key2 : ∀ al : Bool,
        (if al then (200 : Nat) else 503) =
          if ((if al then "healthy" else "degraded") : String) = "healthy" then 200 else 503 := by
      decide
    exact key2 _
  · rcases List.mem_map.mp hb with ⟨q, hqmem, hqb⟩
    have hfb : entryIsHealthy (microserviceEntry q.2 (.err m c)) = false := rfl
    have hflip : (fun n => if n = b then HealthCheckOutcome.err m c else o n) q.1 = .err m c := by
      rw [hqb]
      simp
    show (if ((MICROSERVICES.map fun p => (jsToLowerCase p.1,
        microserviceEntry p.2 ((fun n => if n = b then HealthCheckOutcome.err m c else o n) p.1))).all
          fun p => entryIsHealthy p.2) then "healthy" else "degraded") = "degraded"
    have hmem₂ : (jsToLowerCase q.1, microserviceEntry q.2 (.err m c)) ∈
        MICROSERVICES.map fun p => (jsToLowerCase p.1,
          microserviceEntry p.2 ((fun n => if n = b then HealthCheckOutcome.err m c else o n) p.1)) :=
      List.mem_map.mpr ⟨q, hqmem, by
        show (jsToLowerCase q.1, microserviceEntry q.2
          ((fun n => if n = b then HealthCheckOutcome.err m c else o n) q.1)) = _
        rw [hflip]⟩
    rw [all_false_of_mem _ _ _ hmem₂ hfb]
    rfl
  · intro p hp hpneb
    have k21 : (jsToLowerCase "STATS_API" == jsToLowerCase "SEARCH_API") = false := by decide
    have k31 : (jsToLowerCase "IMAGES_API" == jsToLowerCase "SEARCH_API") = false := by decide
    have k32 : (jsToLowerCase "IMAGES_API" == jsToLowerCase "STATS_API") = false := by decide
    have k41 : (jsToLowerCase "POKE_API" == jsToLowerCase "SEARCH_API") = false := by decide
    have k42 : (jsToLowerCase "POKE_API" == jsToLowerCase "STATS_API") = false := by decide
    have k43 : (jsToLowerCase "POKE_API" == jsToLowerCase "IMAGES_API") = false := by decide
    simp only [MICROSERVICES, List.mem_cons, List.not_mem_nil, or_false] at hp
    rcases hp with rfl | rfl | rfl | rfl <;>
      (simp only at hpneb
       simp [statusHandler, MICROSERVICES, lookup_cons_eq, hpneb, k21, k31, k32, k41, k42, k43])

/-- C4 witness: with all four backends healthy, flipping the stats
backend degrades the report. -/
theorem status_overall_strict_and_witness :
    (statusHandler ⟨0, .null, "t"⟩
      (fun n => if n = "STATS_API" then .err "connect ECONNREFUSED" (some "ECONNREFUSED")
        else (fun _ => .ok "5ms" .null) n) 7).overall_status = "degraded" :=
  (status_overall_strict_and ⟨0, .null, "t"⟩ (fun _ => .ok "5ms" .null) 7 "STATS_API"
    "connect ECONNREFUSED" (some "ECONNREFUSED") (by simp [MICROSERVICES])).2.2.1

/-- C10: the gateway's own entry in every status report has status
"healthy" unconditionally — it does not depend on backend outcomes or on
the measured duration — and `overall_status` is computed from the
microservice entries alone: it does not depend on the gateway's runtime
inputs, and equals the strict reduction over the microservices map. -/
theorem gateway_self_status_constant (g g₂ : GatewayRuntime)
    (o o₂ : String → HealthCheckOutcome) (dur dur₂ : Nat) :
    List.lookup "status" (statusHandler g o dur).gateway = some (.str "healthy")
  ∧ (statusHandler g o dur).gateway = (statusHandler g o₂ dur₂).gateway
  ∧ (statusHandler g o dur).overall_status = (statusHandler g₂ o dur₂).overall_status
  ∧ (statusHandler g o dur).overall_status =
      (if (statusHandler g o dur).microservices.all (fun p => entryIsHealthy p.2)
        then "healthy" else "degraded") :=
  ⟨rfl, rfl, rfl, rfl⟩

end PokeGateway
